import Mathlib

/-!
Verification of the message-layer core of the mute repository against its
specification.  The Go sources are embedded shallowly:

* bytes are `Nat` values (with explicit `< 256` bounds where they matter);
* Go errors and runtime panics become `Except`/`Option` results, with a
  distinct constructor per distinct error value of the source;
* Go maps are association lists whose update is modelled by consing
  (lookup-equivalent to Go map assignment);
* external cryptographic primitives that live outside this repository
  (crypto/sha512, the AES block permutation of crypto/aes, ed25519 and the
  JSON codec of encoding/json) are parameters of the embedding, bundled in
  the `Prims` structure: every theorem below holds for all instantiations
  satisfying the stated shape hypotheses (output lengths, codec round-trip);
* the repository's own base64 wrapper (encode/base64, which applies
  base64.RawURLEncoding) is embedded concretely below, together with a
  proved decode-encode round-trip.
-/

/-- Decidable equality of embedded results (Go values together with
their error channel). -/
instance instDecEqExcept {ε α : Type} [DecidableEq ε] [DecidableEq α] :
    DecidableEq (Except ε α)
  | .error e, .error f =>
      if h : e = f then .isTrue (h ▸ rfl)
      else .isFalse (fun hh => h (Except.error.inj hh))
  | .error _, .ok _ => .isFalse (fun hh => Except.noConfusion hh)
  | .ok _, .error _ => .isFalse (fun hh => Except.noConfusion hh)
  | .ok a, .ok b =>
      if h : a = b then .isTrue (h ▸ rfl)
      else .isFalse (fun hh => h (Except.ok.inj hh))

/-! ### base64 (embeds encode/base64, i.e. base64.RawURLEncoding) -/

/-- The base64url alphabet used by base64.RawURLEncoding. -/
def b64Alphabet : List Char :=
  ['A','B','C','D','E','F','G','H','I','J','K','L','M','N','O','P','Q','R',
   'S','T','U','V','W','X','Y','Z','a','b','c','d','e','f','g','h','i','j',
   'k','l','m','n','o','p','q','r','s','t','u','v','w','x','y','z','0','1',
   '2','3','4','5','6','7','8','9','-','_']

/-- Character for a six-bit group. -/
def encChar (n : Nat) : Char := b64Alphabet.getD n 'A'

/-- Six-bit group for a character; `none` on characters outside the
alphabet (decode error). -/
def decChar (c : Char) : Option Nat := b64Alphabet.findIdx? (fun x => x = c)

/-- Unpadded base64url encoding of a byte sequence, three bytes at a time
(base64.RawURLEncoding.EncodeToString). -/
def b64EncodeBytes : List Nat → List Char
  | b1 :: b2 :: b3 :: rest =>
      encChar (b1 / 4) :: encChar ((b1 % 4) * 16 + b2 / 16) ::
      encChar ((b2 % 16) * 4 + b3 / 64) :: encChar (b3 % 64) ::
      b64EncodeBytes rest
  | [b1, b2] => [encChar (b1 / 4), encChar ((b1 % 4) * 16 + b2 / 16),
      encChar ((b2 % 16) * 4)]
  | [b1] => [encChar (b1 / 4), encChar ((b1 % 4) * 16)]
  | [] => []

/-- Unpadded base64url decoding, four characters at a time
(base64.RawURLEncoding.DecodeString): a single leftover character is a
corrupt-input error, and (like Go's non-strict decoder) non-zero trailing
bits in the final fragment are ignored. -/
def b64DecodeChars : List Char → Option (List Nat)
  | c1 :: c2 :: c3 :: c4 :: rest =>
      match decChar c1, decChar c2, decChar c3, decChar c4,
          b64DecodeChars rest with
      | some s1, some s2, some s3, some s4, some tl =>
          some ((s1 * 4 + s2 / 16) :: ((s2 % 16) * 16 + s3 / 4) ::
            ((s3 % 4) * 64 + s4) :: tl)
      | _, _, _, _, _ => none
  | [c1, c2, c3] =>
      match decChar c1, decChar c2, decChar c3 with
      | some s1, some s2, some s3 =>
          some [s1 * 4 + s2 / 16, (s2 % 16) * 16 + s3 / 4]
      | _, _, _ => none
  | [c1, c2] =>
      match decChar c1, decChar c2 with
      | some s1, some s2 => some [s1 * 4 + s2 / 16]
      | _, _ => none
  | [_] => none
  | [] => some []

namespace base64

/-- Embeds base64.Encode. -/
def Encode (src : List Nat) : String := ⟨b64EncodeBytes src⟩

/-- Embeds base64.Decode; `none` is the decode error. -/
def Decode (s : String) : Option (List Nat) := b64DecodeChars s.data

end base64

theorem decChar_encChar : ∀ n, n < 64 → decChar (encChar n) = some n := by
  decide

theorem b64DecodeChars_encodeBytes (l : List Nat) (h : ∀ b ∈ l, b < 256) :
    b64DecodeChars (b64EncodeBytes l) = some l := by
  induction l using b64EncodeBytes.induct with
  | case1 b1 b2 b3 rest ih =>
      have h1 : b1 < 256 := h b1 (by simp)
      have h2 : b2 < 256 := h b2 (by simp)
      have h3 : b3 < 256 := h b3 (by simp)
      have ih' := ih (fun b hb => h b (by simp [hb]))
      rw [b64EncodeBytes, b64DecodeChars,
        decChar_encChar _ (by omega), decChar_encChar _ (by omega),
        decChar_encChar _ (by omega), decChar_encChar _ (by omega), ih']
      simp only [Option.some.injEq, List.cons.injEq, eq_self_iff_true, and_true]
      omega
  | case2 b1 b2 =>
      have h1 : b1 < 256 := h b1 (by simp)
      have h2 : b2 < 256 := h b2 (by simp)
      rw [b64EncodeBytes, b64DecodeChars,
        decChar_encChar _ (by omega), decChar_encChar _ (by omega),
        decChar_encChar _ (by omega)]
      simp only [Option.some.injEq, List.cons.injEq, eq_self_iff_true, and_true]
      omega
  | case3 b1 =>
      have h1 : b1 < 256 := h b1 (by simp)
      rw [b64EncodeBytes, b64DecodeChars,
        decChar_encChar _ (by omega), decChar_encChar _ (by omega)]
      simp only [Option.some.injEq, List.cons.injEq, eq_self_iff_true, and_true]
      omega
  | case4 => rfl

theorem base64_Decode_Encode (l : List Nat) (h : ∀ b ∈ l, b < 256) :
    base64.Decode (base64.Encode l) = some l :=
  b64DecodeChars_encodeBytes l h

/-! ### AES-256-CTR (embeds cipher/aes256/aes256.go)

The AES-256 block permutation produced by aes.NewCipher lives in Go's
standard library, outside this repository; it enters the embedding as a
parameter `E : List Nat → List Nat → List Nat` (key, 16-byte counter block
→ 16-byte output).  crypto/cipher's NewCTR stream is embedded concretely:
the counter starts at the IV and is incremented big-endian per block.
-/

/-- Big-endian increment of a counter block (crypto/cipher CTR). -/
def ctrIncr (b : List Nat) : List Nat :=
  (ctrIncrAux b.reverse).reverse
where
  /-- increment the least-significant (first) byte with carry -/
  ctrIncrAux : List Nat → List Nat
    | [] => []
    | x :: xs => if x + 1 < 256 then (x + 1) :: xs else 0 :: ctrIncrAux xs

/-- `n` keystream blocks starting from counter `ctr`. -/
def ctrBlocks (E : List Nat → List Nat → List Nat) (key : List Nat) :
    Nat → List Nat → List Nat
  | 0, _ => []
  | n + 1, ctr => E key ctr ++ ctrBlocks E key n (ctrIncr ctr)

/-- Embeds aes256.CTREncrypt.  The randomness source supplies the 16-byte
IV read by io.ReadFull; `none` models the panics of the source (wrong key
size, failing randomness source). -/
def CTREncrypt (E : List Nat → List Nat → List Nat)
    (key plaintext rand : List Nat) : Option (List Nat) :=
  if key.length ≠ 32 then none
  else if rand.length < 16 then none
  else
    let iv := rand.take 16
    let ks := ctrBlocks E key ((plaintext.length + 15) / 16) iv
    some (iv ++ plaintext.zipWith (fun p k => p ^^^ k) ks)

/-- Embeds aes256.CTRDecrypt; `none` models the panics of the source
(wrong key size, ciphertext shorter than one block). -/
def CTRDecrypt (E : List Nat → List Nat → List Nat)
    (key ciphertext : List Nat) : Option (List Nat) :=
  if key.length ≠ 32 then none
  else if ciphertext.length < 16 then none
  else
    let iv := ciphertext.take 16
    let body := ciphertext.drop 16
    let ks := ctrBlocks E key ((body.length + 15) / 16) iv
    some (body.zipWith (fun c k => c ^^^ k) ks)

theorem ctrBlocks_length (E : List Nat → List Nat → List Nat)
    (key : List Nat) (hE : ∀ k b, (E k b).length = 16) :
    ∀ n ctr, (ctrBlocks E key n ctr).length = 16 * n := by
  intro n
  induction n with
  | zero => intro ctr; rfl
  | succ m ih =>
      intro ctr
      simp [ctrBlocks, hE, ih]
      omega

theorem zipWith_xor_xor (ks : List Nat) (pt : List Nat)
    (h : pt.length ≤ ks.length) :
    List.zipWith (fun c k => c ^^^ k)
      (List.zipWith (fun p k => p ^^^ k) pt ks) ks = pt := by
  induction pt generalizing ks with
  | nil => simp
  | cons p ps ih =>
      cases ks with
      | nil => simp at h
      | cons k kss =>
          simp only [List.zipWith_cons_cons, List.cons.injEq]
          constructor
          · rw [Nat.xor_assoc, Nat.xor_self, Nat.xor_zero]
          · exact ih kss (by simpa using h)

theorem byte_xor_lt (x y : Nat) (hx : x < 256) (hy : y < 256) :
    x ^^^ y < 256 := by
  have : x ^^^ y < 2 ^ 8 := Nat.bitwise_lt hx hy
  simpa using this

theorem ctrBlocks_bytes_lt (E : List Nat → List Nat → List Nat)
    (key : List Nat) (hE : ∀ k b, ∀ v ∈ E k b, v < 256) :
    ∀ n ctr, ∀ v ∈ ctrBlocks E key n ctr, v < 256 := by
  intro n
  induction n with
  | zero => intro ctr v hv; simp [ctrBlocks] at hv
  | succ m ih =>
      intro ctr v hv
      simp only [ctrBlocks, List.mem_append] at hv
      rcases hv with hv | hv
      · exact hE key ctr v hv
      · exact ih (ctrIncr ctr) v hv

theorem zipWith_xor_bytes_lt (pt ks : List Nat)
    (hpt : ∀ b ∈ pt, b < 256) (hks : ∀ b ∈ ks, b < 256) :
    ∀ b ∈ List.zipWith (fun p k => p ^^^ k) pt ks, b < 256 := by
  induction pt generalizing ks with
  | nil => simp
  | cons p ps ih =>
      cases ks with
      | nil => simp
      | cons k kss =>
          intro b hb
          simp only [List.zipWith_cons_cons, List.mem_cons] at hb
          rcases hb with rfl | hb
          · exact byte_xor_lt p k (hpt p (by simp)) (hks k (by simp))
          · exact ih kss (fun x hx => hpt x (List.mem_cons_of_mem _ hx))
              (fun x hx => hks x (List.mem_cons_of_mem _ hx)) b hb

/-- Core CTR round-trip, shared by the aes256 and keyinit developments:
for any block permutation of 16-byte outputs, a 32-byte key and a
randomness source holding at least the 16 IV bytes, decryption inverts
encryption and the ciphertext is IV-length longer than the plaintext. -/
theorem CTR_roundtrip (E : List Nat → List Nat → List Nat)
    (key pt rand : List Nat) (hkey : key.length = 32)
    (hrand : 16 ≤ rand.length) (hE : ∀ k b, (E k b).length = 16) :
    ∃ ct, CTREncrypt E key pt rand = some ct ∧
      ct.length = pt.length + 16 ∧ CTRDecrypt E key ct = some pt := by
  have hiv : (rand.take 16).length = 16 := by
    simp [List.length_take]; omega
  set iv := rand.take 16 with hivdef
  set nb := (pt.length + 15) / 16 with hnb
  set ks := ctrBlocks E key nb iv with hks
  have hkslen : pt.length ≤ ks.length := by
    rw [hks, ctrBlocks_length E key hE]
    omega
  set body := pt.zipWith (fun p k => p ^^^ k) ks with hbody
  have hbodylen : body.length = pt.length := by
    rw [hbody, List.length_zipWith]
    omega
  refine ⟨iv ++ body, ?_, ?_, ?_⟩
  · rw [CTREncrypt]
    simp only [hkey, hrand]
    simp [← hivdef, ← hnb, ← hks, ← hbody]
    omega
  · simp [hbodylen, hiv, Nat.add_comm]
  · have hctlen : ¬ (iv ++ body).length < 16 := by
      simp [hiv, hbodylen]
    have htake : (iv ++ body).take 16 = iv := List.take_left' hiv
    have hdrop : (iv ++ body).drop 16 = body := List.drop_left' hiv
    simp only [CTRDecrypt, hkey, hctlen, htake, hdrop, hbodylen, ← hnb,
      ← hks, ne_eq, not_true_eq_false, not_false_eq_true, if_false,
      ite_false, if_neg, reduceIte]
    rw [hbody, zipWith_xor_xor ks pt hkslen]

/-! ### uid types and keyinit (embeds uid/keyinit.go)

KeyEntry, the UID Message and marshalSorted live in files of the
repository that are not part of the embedded sources; KeyEntry and
Message are modelled from the spec below, and the sorted-JSON codec and
the remaining crypto primitives are parameters (`Prims`).
-/

/-- Modelled from the spec: uid.KeyEntry (uid/keyentry.go is not among
the embedded sources) is "an asymmetric key-entry abstraction carrying a
public/private elliptic-curve key pair, a content hash, validity window,
and a capability tag (function)". -/
structure KeyEntry where
  FUNCTION : String
  HASH : String
  PUBKEY : String
  privKey32 : List Nat
  NOTAFTER : Nat
  NOTBEFORE : Nat
deriving DecidableEq

/-- A SessionAnchor contains the keys for perfect forward secrecy. -/
structure SessionAnchor where
  MIXADDRESS : String
  NYMADDRESS : String
  PFKEYS : List KeyEntry
deriving DecidableEq

/-- Embeds the Go struct `contents` of uid/keyinit.go. -/
structure contents where
  VERSION : String
  MSGCOUNT : Nat
  NOTAFTER : Nat
  NOTBEFORE : Nat
  FALLBACK : Bool
  SIGKEYHASH : String
  REPOURI : String
  SESSIONANCHOR : String
  SESSIONANCHORHASH : String
deriving DecidableEq

/-- A KeyInit message contains short-term keys. -/
structure KeyInit where
  Contents : contents
  SIGNATURE : String
deriving DecidableEq

/-- The distinct error values and panics of the uid package, one
constructor per distinct source error. -/
inductive UidErr where
  /-- ErrInvalidTimes -/
  | invalidTimes
  /-- ErrExpired -/
  | expired
  /-- ErrFuture -/
  | future
  /-- ErrRepoURI -/
  | repoURI
  /-- ErrWrongSigKeyHash -/
  | wrongSigKeyHash
  /-- ErrSessionAnchor -/
  | sessionAnchorErr
  /-- ErrKeyEntryNotFound -/
  | keyEntryNotFound
  /-- ErrInvalidKeyInitSig -/
  | invalidKeyInitSig
  /-- ErrInvalidSrvSig -/
  | invalidSrvSig
  /-- a base64 decode error propagated by `return nil, err` -/
  | decodeError
  /-- a json.Unmarshal error propagated by `return nil, log.Error(err)` -/
  | jsonError
  /-- "uid: ki.Contents.MSGCOUNT must be 0" -/
  | msgCountNonZero
  /-- "uid: unknown ki.Contents.VERSION" -/
  | unknownVersion
  /-- "uri: repoURI differs from msg.UIDContent.REPOURIS[0]" -/
  | repoURIMismatch
  /-- an error of KeyEntry.Verify -/
  | keyEntryInvalid
  /-- a Go runtime panic (out-of-range index or slice) -/
  | panicked
deriving DecidableEq

/-- MaxNotAfter defines the number of seconds the NOTAFTER field of a
KeyInit message can be in the future. -/
def MaxNotAfter : Nat := 90 * 24 * 60 * 60

/-- Modelled from the spec: uid.ProtocolVersion (uid/uid.go is not among
the embedded sources); KeyInit.Check below only supports version 1.0. -/
def ProtocolVersion : String := "1.0"

/-- Embeds util.ContainsString of util/util.go. -/
def ContainsString : List String → String → Bool
  | [], _ => false
  | v :: rest, s => if v = s then true else ContainsString rest s

/-- The primitives the uid package takes from outside this repository,
as parameters of the embedding: crypto/sha512 (via cipher.SHA512),
the AES-256 block permutation (via crypto/aes), ed25519 signing and
verification, KeyEntry.Verify (uid/keyentry.go, not among the embedded
sources), the sorted-JSON codec (marshalSorted / encoding/json), and the
current unix time (times.Now). -/
structure Prims where
  sha512 : List Nat → List Nat
  aesE : List Nat → List Nat → List Nat
  edSign : KeyEntry → List Nat → List Nat
  edVerify : List Nat → List Nat → List Nat → Bool
  keVerify : KeyEntry → Except UidErr Unit
  marshalSA : SessionAnchor → List Nat
  unmarshalSA : List Nat → Option SessionAnchor
  marshalContents : contents → List Nat
  now : Nat

/-- KeyEntry returns the KeyEntry of the SessionAnchor for the given
function (the first PFKEYS entry with a matching FUNCTION tag). -/
def SessionAnchor.KeyEntry (sa : SessionAnchor) (function : String) :
    Except UidErr KeyEntry :=
  match sa.PFKEYS.find? (fun ke => ke.FUNCTION = function) with
  | some ke => .ok ke
  | none => .error .keyEntryNotFound

/-- SessionAnchor returns the decrypted and verified session anchor for
KeyInit (embeds KeyInit.SessionAnchor). -/
def KeyInit.SessionAnchor (p : Prims) (ki : KeyInit) (sigPubKey : String) :
    Except UidErr SessionAnchor :=
  match base64.Decode sigPubKey with
  | none => .error .decodeError
  | some pubKey =>
    let keyHash := p.sha512 pubKey
    if ki.Contents.SIGKEYHASH ≠ base64.Encode (p.sha512 keyHash) then
      .error .wrongSigKeyHash
    else match base64.Decode ki.Contents.SESSIONANCHOR with
    | none => .error .decodeError
    | some enc =>
      -- keyHash[:32] (a panic when SHA512 yields fewer than 32 bytes is
      -- subsumed by CTRDecrypt's key-length panic)
      match CTRDecrypt p.aesE (keyHash.take 32) enc with
      | none => .error .panicked
      | some txt =>
        match p.unmarshalSA txt with
        | none => .error .jsonError
        | some sa =>
          if ki.Contents.SESSIONANCHORHASH ≠
              base64.Encode (p.sha512 (p.marshalSA sa)) then
            .error .sessionAnchorErr
          else .ok sa

/-- Verify verifies that the KeyInit is valid and contains a valid
ECDHE25519 key (embeds KeyInit.Verify). -/
def KeyInit.Verify (p : Prims) (ki : KeyInit)
    (keyInitRepositoryURIs : List String) (sigPubKey : String) :
    Except UidErr Unit :=
  if ¬ ContainsString keyInitRepositoryURIs ki.Contents.REPOURI then
    .error .repoURI
  else match ki.SessionAnchor p sigPubKey with
  | .error e => .error e
  | .ok sa =>
  match sa.KeyEntry "ECDHE25519" with
  | .error e => .error e
  | .ok ke =>
  match p.keVerify ke with
  | .error e => .error e
  | .ok _ =>
  if ki.Contents.NOTBEFORE ≥ ki.Contents.NOTAFTER then .error .invalidTimes
  else if ki.Contents.NOTAFTER < p.now then .error .expired
  else match base64.Decode ki.SIGNATURE with
  | none => .error .decodeError
  | some sig =>
  match base64.Decode sigPubKey with
  | none => .error .decodeError
  | some pubKey =>
  if ¬ p.edVerify pubKey (p.marshalContents ki.Contents) sig then
    .error .invalidKeyInitSig
  else .ok ()

/-- Modelled from the spec: the UID message, "an identity document
binding a long-term signing key to a human-readable name" (uid/uid.go is
not among the embedded sources); only the fields keyinit.go reads are
modelled. -/
structure UIDContent where
  SIGKEY : KeyEntry
  REPOURIS : List String

/-- Modelled from the spec: uid.Message, see UIDContent. -/
structure Message where
  UIDContent : UIDContent

/-- Embeds Message.sessionAnchor.  KeyEntry.InitDHKey (uid/keyentry.go,
not among the embedded sources) generates a fresh ephemeral key entry
from the randomness source; it is modelled from the spec by passing the
generated entry `pfk` explicitly, while `rand` supplies the CTR IV.
Returns (sessionAnchor, sessionAnchorHash, pubKeyHash, privateKey). -/
def Message.sessionAnchor (p : Prims) (key : List Nat)
    (mixaddress nymaddress : String) (pfk : KeyEntry) (rand : List Nat) :
    Except UidErr (String × String × String × String) :=
  let sa : SessionAnchor :=
    { MIXADDRESS := mixaddress, NYMADDRESS := nymaddress, PFKEYS := [pfk] }
  let jsn := p.marshalSA sa
  let hash := p.sha512 jsn
  -- SESSIONANCHOR = AES256_CTR(key=UIDMessage.UIDContent.SIGKEY.HASH, SessionAnchor)
  -- key[:32] (a panic when key has fewer than 32 bytes is subsumed by
  -- CTREncrypt's key-length panic)
  match CTREncrypt p.aesE (key.take 32) jsn rand with
  | none => .error .panicked
  | some enc =>
      .ok (base64.Encode enc, base64.Encode hash, pfk.HASH,
        base64.Encode pfk.privKey32)

/-- KeyInit returns a new KeyInit message for the given UID message,
with the pubKeyHash and privateKey of the generated ephemeral key
(embeds Message.KeyInit). -/
def Message.KeyInit (p : Prims) (msg : Message)
    (msgcount notafter notbefore : Nat) (fallback : Bool)
    (repoURI mixaddress nymaddress : String) (pfk : KeyEntry)
    (rand : List Nat) : Except UidErr (KeyInit × String × String) :=
  -- time checks
  if notbefore ≥ notafter then .error .invalidTimes
  else if notafter < p.now then .error .expired
  else if notafter > p.now + MaxNotAfter then .error .future
  else match base64.Decode msg.UIDContent.SIGKEY.HASH with
  | none => .error .decodeError
  | some keyHash =>
  -- make sure REPOURIS is set to the first REPOURI of UIDContent.REPOURIS
  match msg.UIDContent.REPOURIS with
  | [] => .error .panicked
  | r0 :: _ =>
  if repoURI ≠ r0 then .error .repoURIMismatch
  else match Message.sessionAnchor p keyHash mixaddress nymaddress pfk rand with
  | .error e => .error e
  | .ok (sa, sah, pubKeyHash, privateKey) =>
    let c : contents :=
      { VERSION := ProtocolVersion, MSGCOUNT := msgcount,
        NOTAFTER := notafter, NOTBEFORE := notbefore, FALLBACK := fallback,
        SIGKEYHASH := base64.Encode (p.sha512 keyHash), REPOURI := repoURI,
        SESSIONANCHOR := sa, SESSIONANCHORHASH := sah }
    let sig := base64.Encode (p.edSign msg.UIDContent.SIGKEY
      (p.marshalContents c))
    .ok ({ Contents := c, SIGNATURE := sig }, pubKeyHash, privateKey)

/-- Embeds KeyInit.checkV1_0: Contents.MSGCOUNT must be 0. -/
def KeyInit.checkV1_0 (ki : KeyInit) : Except UidErr Unit :=
  if ki.Contents.MSGCOUNT ≠ 0 then .error .msgCountNonZero
  else .ok ()

/-- Check that the content of KeyInit is consistent with its version
(embeds KeyInit.Check; only version 1.0 is supported). -/
def KeyInit.Check (ki : KeyInit) : Except UidErr Unit :=
  if ki.Contents.VERSION ≠ "1.0" then .error .unknownVersion
  else ki.checkV1_0

/-! ### msg / session (embeds msg/msg.go and the session package file) -/

/-- NumOfFutureKeys defines the default number of future message keys
which are precomputed. -/
def NumOfFutureKeys : Nat := 50

/-- State describes the current session state between two communicating
parties (embeds session.State; Go nil-able pointer fields become
Option). -/
structure State where
  SenderSessionCount : Nat
  SenderMessageCount : Nat
  MaxRecipientCount : Nat
  RecipientTemp : KeyEntry
  SenderSessionPub : KeyEntry
  NextSenderSessionPub : Option KeyEntry
  NextRecipientSessionPubSeen : Option KeyEntry
  NymAddress : String
  KeyInitSession : Bool
deriving DecidableEq

/-- Modelled from the spec: uid.KeyEntryEqual (uid/keyentry.go is not
among the embedded sources) reports whether the exported fields of two
key entries agree, treating two nil pointers as equal and a nil/non-nil
pair as unequal. -/
def KeyEntryEqual : Option KeyEntry → Option KeyEntry → Bool
  | none, none => true
  | some a, some b => a = b
  | _, _ => false

/-- StateEqual returns a boolean reporting whether a and b have the same
exported fields (embeds session.StateEqual).  The Go source only short
cuts on pointer equality `a == b` (covered by the `none, none` case; for
two equal non-nil pointers the field comparison below returns the same
result) and then dereferences both arguments, so a nil/non-nil pair is a
nil-pointer dereference, modelled as `.error ()`. -/
def StateEqual : Option State → Option State → Except Unit Bool
  | none, none => .ok true
  | some a, some b => .ok (
      if a.SenderSessionCount ≠ b.SenderSessionCount then false
      else if a.SenderMessageCount ≠ b.SenderMessageCount then false
      else if a.MaxRecipientCount ≠ b.MaxRecipientCount then false
      else if ¬ KeyEntryEqual (some a.RecipientTemp) (some b.RecipientTemp) then
        false
      else if ¬ KeyEntryEqual (some a.SenderSessionPub)
          (some b.SenderSessionPub) then false
      else if ¬ KeyEntryEqual a.NextSenderSessionPub
          b.NextSenderSessionPub then false
      else if ¬ KeyEntryEqual a.NextRecipientSessionPubSeen
          b.NextRecipientSessionPubSeen then false
      else if a.NymAddress ≠ b.NymAddress then false
      else if a.KeyInitSession ≠ b.KeyInitSession then false
      else true)
  | _, _ => .error ()

/-- The byte sequence of a string ([]byte(s); the session keys fed to
CalcKey are base64/ASCII strings, for which the code points are the
UTF-8 bytes). -/
def strBytes (s : String) : List Nat := s.data.map Char.toNat

/-- CalcKey computes the session key from senderIdentityHash,
recipientIdentityHash, senderSessionHash, and recipientSessionHash
(embeds session.CalcKey; cipher.SHA512 is the `sha512` parameter). -/
def CalcKey (sha512 : List Nat → List Nat)
    (senderIdentityHash recipientIdentityHash senderSessionHash
      recipientSessionHash : String) : String :=
  let key := senderIdentityHash ++ recipientIdentityHash
  let key := key ++ (senderSessionHash ++ recipientSessionHash)
  base64.Encode (sha512 (strBytes key))

/-! ### MemStore (embeds the in-memory key store file, src/unnamed/part_003) -/

/-- Embeds the unexported struct memSession. -/
structure memSession where
  rootKeyHash : String
  chainKey : String
  send : List String
  recv : List String
deriving DecidableEq

/-- MemStore implements the KeyStore interface in memory.  The Go maps
are association lists; assignment conses (lookup-equivalent to Go map
update). -/
structure MemStore where
  privateKeyEntryMap : List (String × KeyEntry)
  publicKeyEntryMap : List (String × KeyEntry)
  sessionStates : List (String × State)
  sessions : List (String × memSession)
  senderSessionPubHash : String
deriving DecidableEq

/-- The distinct error values of the memstore package and of the session
errors it returns, one constructor per distinct source error. -/
inductive StoreErr where
  /-- "memstore: no session found for %s and %s" -/
  | noSession
  /-- "memstore: message index out of bounds" -/
  | msgIndexOutOfBounds
  /-- session.ErrMessageKeyUsed ("key already used") -/
  | messageKeyUsed
  /-- "memstore: cannot decode %s key for %s and %s" -/
  | decodeError
  /-- "memstore: %s key for %s and %s has wrong length" -/
  | wrongLength
  /-- "memstore: len(send) != len(recv)" -/
  | lenMismatch
  /-- an error of identity.IsMapped -/
  | notMapped
  /-- a Go runtime panic (out-of-range index) -/
  | panicked
deriving DecidableEq

/-- New returns a new MemStore. -/
def MemStore.New : MemStore :=
  { privateKeyEntryMap := [], publicKeyEntryMap := [], sessionStates := [],
    sessions := [], senderSessionPubHash := "" }

/-- GetSessionState implemented in memory: always a nil error, the state
is the map lookup (nil/none when absent). -/
def MemStore.GetSessionState (ms : MemStore) (myID contactID : String) :
    Except Unit (Option State) :=
  .ok (ms.sessionStates.lookup (myID ++ "@" ++ contactID))

/-- SetSessionState implemented in memory.  The Go source first logs
sessionState.SenderSessionPub.HASH, dereferencing the argument, so a nil
sessionState is a nil-pointer dereference (`.error ()`); otherwise the
state is stored under myID+"@"+contactID and a nil error returned. -/
def MemStore.SetSessionState (ms : MemStore) (myID contactID : String)
    (sessionState : Option State) : Except Unit MemStore :=
  match sessionState with
  | none => .error ()
  | some st =>
      .ok { ms with
        sessionStates := (myID ++ "@" ++ contactID, st) :: ms.sessionStates }

/-- StoreSession implemented in memory.  identity.IsMapped (package
uid/identity, not among the embedded sources) is a parameter; the length
check and the map update are embedded from the source.  An error leaves
the store unchanged (the Go method returns before touching the maps). -/
def MemStore.StoreSession (isMapped : String → Except StoreErr Unit)
    (ms : MemStore)
    (myID contactID senderSessionPubHash rootKeyHash chainKey : String)
    (send recv : List String) : Except StoreErr MemStore :=
  match isMapped myID with
  | .error e => .error e
  | .ok _ =>
  match isMapped contactID with
  | .error e => .error e
  | .ok _ =>
  if send.length ≠ recv.length then .error .lenMismatch
  else
    let index := myID ++ "@" ++ contactID ++ "@" ++ senderSessionPubHash
    .ok { ms with
      sessions := (index,
        { rootKeyHash := rootKeyHash, chainKey := chainKey,
          send := send, recv := recv }) :: ms.sessions,
      senderSessionPubHash := senderSessionPubHash }

/-- GetMessageKey implemented in memory.  Both bounds checks compare
msgIndex against len(s.send); reading the recv chain past its end (only
possible when the chains have different lengths) is a Go runtime panic,
modelled as `.error .panicked`.  On success the Go method copies the
first 64 decoded bytes into the returned array. -/
def MemStore.GetMessageKey (ms : MemStore)
    (myID contactID senderSessionPubHash : String) (sender : Bool)
    (msgIndex : Nat) : Except StoreErr (List Nat) :=
  let index := myID ++ "@" ++ contactID ++ "@" ++ senderSessionPubHash
  match ms.sessions.lookup index with
  | none => .error .noSession
  | some s =>
    if msgIndex ≥ s.send.length then .error .msgIndexOutOfBounds
    else
      match (if sender then s.send[msgIndex]? else s.recv[msgIndex]?) with
      | none => .error .panicked
      | some key =>
        -- make sure key wasn't used yet
        if key = "" then .error .messageKeyUsed
        else match base64.Decode key with
        | none => .error .decodeError
        | some k =>
          if min 64 k.length ≠ 64 then .error .wrongLength
          else .ok (k.take 64)

/-- DelMessageKey implemented in memory: blanks the consumed key (the Go
method writes "" into the chain slice in place; the model returns the
updated store).  Writing past the end of the recv chain is a Go runtime
panic, modelled as `.error .panicked`. -/
def MemStore.DelMessageKey (ms : MemStore)
    (myID contactID senderSessionPubHash : String) (sender : Bool)
    (msgIndex : Nat) : Except StoreErr MemStore :=
  let index := myID ++ "@" ++ contactID ++ "@" ++ senderSessionPubHash
  match ms.sessions.lookup index with
  | none => .error .noSession
  | some s =>
    if msgIndex ≥ s.send.length then .error .msgIndexOutOfBounds
    else if sender then
      .ok { ms with sessions :=
        (index, { s with send := s.send.set msgIndex "" }) :: ms.sessions }
    else if msgIndex < s.recv.length then
      .ok { ms with sessions :=
        (index, { s with recv := s.recv.set msgIndex "" }) :: ms.sessions }
    else .error .panicked

/-! ### Claims -/

/-- C5: the string-concatenation session-key computation is ambiguous:
two distinct 4-tuples of arguments for which CalcKey returns the same
session key, because CalcKey hashes the plain concatenation of its four
arguments without any delimiter (for every hash function). -/
theorem calcKey_concatenation_ambiguous :
    ∀ sha512 : List Nat → List Nat,
      CalcKey sha512 "ab" "c" "d" "e" = CalcKey sha512 "a" "bc" "d" "e" ∧
      (("ab", "c", "d", "e") : String × String × String × String) ≠
        ("a", "bc", "d", "e") := by
  intro sha512
  refine ⟨?_, by decide⟩
  show base64.Encode (sha512 (strBytes (("ab" ++ "c") ++ ("d" ++ "e")))) = _
  rw [show ("ab" ++ "c") ++ ("d" ++ "e") = ("a" ++ "bc") ++ ("d" ++ "e")
    from by decide]
  rfl

/-- C6: for every call to MemStore.StoreSession in which the send and
recv key lists have different lengths an error is returned (and, the
error being returned before the maps are touched, no session is added),
and NumOfFutureKeys equals 50.  The theorem holds for every behaviour of
the external identity.IsMapped validator. -/
theorem storeSession_parallel_chains
    (isMapped : String → Except StoreErr Unit) (ms : MemStore)
    (myID contactID senderSessionPubHash rootKeyHash chainKey : String)
    (send recv : List String) (h : send.length ≠ recv.length) :
    (∃ e, MemStore.StoreSession isMapped ms myID contactID
      senderSessionPubHash rootKeyHash chainKey send recv = .error e) ∧
    NumOfFutureKeys = 50 := by
  refine ⟨?_, rfl⟩
  unfold MemStore.StoreSession
  cases h1 : isMapped myID with
  | error e => exact ⟨e, rfl⟩
  | ok u =>
    cases h2 : isMapped contactID with
    | error e => exact ⟨e, rfl⟩
    | ok v => exact ⟨.lenMismatch, by simp [h]⟩

theorem storeSession_parallel_chains_witness :
    (∃ e, MemStore.StoreSession (fun _ => .ok ()) MemStore.New
      "a" "b" "c" "d" "e" ["k"] [] = .error e) ∧
    NumOfFutureKeys = 50 :=
  storeSession_parallel_chains (fun _ => .ok ()) MemStore.New
    "a" "b" "c" "d" "e" ["k"] [] (by decide)

/-- C7: KeyInit.Check succeeds if and only if Contents.VERSION equals
"1.0" and Contents.MSGCOUNT equals 0 (every other KeyInit yields an
error, the Except value not being `.ok ()`). -/
theorem keyInit_Check_iff (ki : KeyInit) :
    ki.Check = .ok () ↔
      (ki.Contents.VERSION = "1.0" ∧ ki.Contents.MSGCOUNT = 0) := by
  by_cases h1 : ki.Contents.VERSION = "1.0" <;>
    by_cases h2 : ki.Contents.MSGCOUNT = 0 <;>
    simp [KeyInit.Check, KeyInit.checkV1_0, h1, h2]

/-- C8: StateEqual treats two nil states as equal, but dereferences a
nil pointer (the `.error ()` branch of the embedding) whenever exactly
one argument is nil, the nil check of the source only covering the case
a == b. -/
theorem stateEqual_nil_partiality :
    StateEqual none none = .ok true ∧
    ∀ s : State, StateEqual none (some s) = .error () ∧
      StateEqual (some s) none = .error () :=
  ⟨rfl, fun _ => ⟨rfl, rfl⟩⟩

/-- C10: AES-256-CTR round-trip: for every 32-byte key, every plaintext
and every randomness source supplying the 16-byte IV, CTRDecrypt
inverts CTREncrypt and the ciphertext is the plaintext length plus the
16 prepended IV bytes (for every block permutation with 16-byte
outputs, in particular AES-256). -/
theorem aes256_ctr_roundtrip (E : List Nat → List Nat → List Nat)
    (key plaintext rand : List Nat) (hkey : key.length = 32)
    (hrand : 16 ≤ rand.length) (hE : ∀ k b, (E k b).length = 16) :
    ∃ ct, CTREncrypt E key plaintext rand = some ct ∧
      ct.length = plaintext.length + 16 ∧
      CTRDecrypt E key ct = some plaintext :=
  CTR_roundtrip E key plaintext rand hkey hrand hE

theorem aes256_ctr_roundtrip_witness :
    ∃ ct, CTREncrypt (fun _ _ => List.replicate 16 0)
        (List.replicate 32 0) [1, 2, 3] (List.replicate 16 7) = some ct ∧
      ct.length = [1, 2, 3].length + 16 ∧
      CTRDecrypt (fun _ _ => List.replicate 16 0)
        (List.replicate 32 0) ct = some [1, 2, 3] :=
  aes256_ctr_roundtrip (fun _ _ => List.replicate 16 0)
    (List.replicate 32 0) [1, 2, 3] (List.replicate 16 7)
    (by decide) (by decide) (fun _ _ => rfl)

/-- C1: a message key at index i is retrievable at most once: after a
successful GetMessageKey at i and a DelMessageKey at i, a second
GetMessageKey at i fails with session.ErrMessageKeyUsed, while a
GetMessageKey at any index at or beyond the chain length fails with the
distinct "message index out of bounds" error. -/
theorem messageKey_retrievable_at_most_once (ms : MemStore)
    (myID contactID senderSessionPubHash : String) (sender : Bool)
    (i j : Nat) (k : List Nat) (s : memSession)
    (hget : ms.GetMessageKey myID contactID senderSessionPubHash sender i =
      .ok k)
    (hs : ms.sessions.lookup
      (myID ++ "@" ++ contactID ++ "@" ++ senderSessionPubHash) = some s)
    (hj : s.send.length ≤ j) :
    (∃ ms', ms.DelMessageKey myID contactID senderSessionPubHash sender i =
        .ok ms' ∧
      ms'.GetMessageKey myID contactID senderSessionPubHash sender i =
        .error .messageKeyUsed) ∧
    ms.GetMessageKey myID contactID senderSessionPubHash sender j =
      .error .msgIndexOutOfBounds ∧
    StoreErr.messageKeyUsed ≠ StoreErr.msgIndexOutOfBounds := by
  refine ⟨?_, ?_, by decide⟩
  · simp only [MemStore.GetMessageKey] at hget
    rw [hs] at hget
    by_cases hlt : i ≥ s.send.length
    · simp [hlt] at hget
    · simp only [if_neg hlt] at hget
      cases hk : (if sender then s.send[i]? else s.recv[i]?) with
      | none => rw [hk] at hget; simp at hget
      | some key =>
        rw [hk] at hget
        by_cases hkey : key = ""
        · simp [hkey] at hget
        · have hilt : i < s.send.length := by omega
          cases sender with
          | true =>
            have hks : s.send[i]? = some key := by simpa using hk
            refine ⟨{ ms with sessions :=
              (myID ++ "@" ++ contactID ++ "@" ++ senderSessionPubHash,
                { s with send := s.send.set i "" }) :: ms.sessions }, ?_, ?_⟩
            · simp only [MemStore.DelMessageKey]
              rw [hs]
              simp [hlt]
            · simp only [MemStore.GetMessageKey, List.lookup]
              simp [List.length_set, hlt,
                List.getElem?_set_eq_of_lt ("" : String) hilt]
          | false =>
            have hkr : s.recv[i]? = some key := by simpa using hk
            have hir : i < s.recv.length := by
              obtain ⟨h1, -⟩ := List.getElem?_eq_some.mp hkr
              exact h1
            refine ⟨{ ms with sessions :=
              (myID ++ "@" ++ contactID ++ "@" ++ senderSessionPubHash,
                { s with recv := s.recv.set i "" }) :: ms.sessions }, ?_, ?_⟩
            · simp only [MemStore.DelMessageKey]
              rw [hs]
              simp [hlt, hir]
            · simp only [MemStore.GetMessageKey, List.lookup]
              simp [hlt, List.getElem?_set_eq_of_lt ("" : String) hir]
  · simp only [MemStore.GetMessageKey]
    rw [hs]
    simp [show j ≥ s.send.length from hj]

/-- A concrete store for the C1 witness: one session between "a" and
"b" whose chains hold a single unconsumed 64-byte key. -/
def c1Key : String := base64.Encode (List.replicate 64 0)

def c1Session : memSession :=
  { rootKeyHash := "r", chainKey := "ck",
    send := [c1Key], recv := [c1Key] }

def c1Store : MemStore :=
  { MemStore.New with sessions := [("a@b@c", c1Session)] }

theorem messageKey_retrievable_at_most_once_witness :
    (∃ ms', c1Store.DelMessageKey "a" "b" "c" true 0 = .ok ms' ∧
      ms'.GetMessageKey "a" "b" "c" true 0 = .error .messageKeyUsed) ∧
    c1Store.GetMessageKey "a" "b" "c" true 1 =
      .error .msgIndexOutOfBounds ∧
    StoreErr.messageKeyUsed ≠ StoreErr.msgIndexOutOfBounds :=
  messageKey_retrievable_at_most_once c1Store "a" "b" "c" true 0 1
    (List.replicate 64 0) c1Session (by decide) (by decide) (by decide)

/-- A key entry and session state with default field values, used by the
session-state examples. -/
def keDefault : KeyEntry :=
  { FUNCTION := "", HASH := "", PUBKEY := "", privKey32 := [],
    NOTAFTER := 0, NOTBEFORE := 0 }

def s0 : State :=
  { SenderSessionCount := 0, SenderMessageCount := 0,
    MaxRecipientCount := 0, RecipientTemp := keDefault,
    SenderSessionPub := keDefault, NextSenderSessionPub := none,
    NextRecipientSessionPubSeen := none, NymAddress := "",
    KeyInitSession := false }

/-- A sequence of SetSessionState calls applied to a store (the
`.error` branch is unreachable: SetSessionState only fails on a nil
state argument). -/
def applySets (ms : MemStore) (ops : List (String × String × State)) :
    MemStore :=
  ops.foldl (fun m op =>
    match m.SetSessionState op.1 op.2.1 (some op.2.2) with
    | .ok m' => m'
    | .error _ => m) ms

theorem applySets_lookup (K : String) :
    ∀ (ops : List (String × String × State)) (ms : MemStore),
      (∀ op ∈ ops, op.1 ++ "@" ++ op.2.1 ≠ K) →
      (applySets ms ops).sessionStates.lookup K =
        ms.sessionStates.lookup K := by
  intro ops
  induction ops with
  | nil => intro ms h; rfl
  | cons op rest ih =>
      intro ms h
      have hop : op.1 ++ "@" ++ op.2.1 ≠ K := h op (by simp)
      have hbeq : (K == op.1 ++ "@" ++ op.2.1) = false :=
        beq_eq_false_iff_ne.mpr (Ne.symm hop)
      have hrest := ih
        { ms with sessionStates :=
            (op.1 ++ "@" ++ op.2.1, op.2.2) :: ms.sessionStates }
        (fun o ho => h o (by simp [ho]))
      simp only [applySets, List.foldl_cons, MemStore.SetSessionState] at hrest ⊢
      rw [hrest, List.lookup, hbeq]

/-- C9 (amended): MemStore.GetSessionState never fails — for every pair
of identity strings it returns a nil error — and it returns a nil state
when no SetSessionState call was made whose concatenated lookup key
myID+"@"+contactID equals this pair's; because the lookup key is a plain
concatenation, a state set for a different pair with the same
concatenation is also returned (see the counterexample). -/
theorem getSessionState_total_and_absent
    (ops : List (String × String × State)) (myID contactID : String)
    (h : ∀ op ∈ ops, op.1 ++ "@" ++ op.2.1 ≠ myID ++ "@" ++ contactID) :
    (∀ (ms : MemStore) (a b : String), ∃ v,
      MemStore.GetSessionState ms a b = .ok v) ∧
    MemStore.GetSessionState (applySets MemStore.New ops) myID contactID =
      .ok none := by
  refine ⟨fun ms a b => ⟨_, rfl⟩, ?_⟩
  simp only [MemStore.GetSessionState]
  rw [applySets_lookup _ ops MemStore.New h]
  rfl

theorem getSessionState_total_and_absent_witness :
    (∀ (ms : MemStore) (a b : String), ∃ v,
      MemStore.GetSessionState ms a b = .ok v) ∧
    MemStore.GetSessionState
      (applySets MemStore.New [("x", "y", s0)]) "a" "b" = .ok none :=
  getSessionState_total_and_absent [("x", "y", s0)] "a" "b" (by decide)

/-- The store obtained from a new MemStore by the single call
SetSessionState("a", "b@c", s0). -/
def c9Store : MemStore :=
  (MemStore.New.SetSessionState "a" "b@c" (some s0)).toOption.getD
    MemStore.New

/-- C9 counterexample: the pair ("a@b", "c") was never set — the only
SetSessionState call in c9Store is for the distinct pair ("a", "b@c") —
yet GetSessionState("a@b", "c") returns a non-nil state, because both
pairs concatenate to the same lookup key "a@b@c". -/
theorem getSessionState_collision_cx :
    MemStore.GetSessionState c9Store "a@b" "c" = .ok (some s0) ∧
    ("a@b", "c") ≠ ("a", "b@c") := by decide

/-- The session anchor built by Message.sessionAnchor. -/
def mkAnchor (mixaddress nymaddress : String) (pfk : KeyEntry) :
    SessionAnchor :=
  { MIXADDRESS := mixaddress, NYMADDRESS := nymaddress, PFKEYS := [pfk] }

/-- An ephemeral key entry with the ECDHE25519 capability tag. -/
def keE : KeyEntry := { keDefault with FUNCTION := "ECDHE25519" }

def sa0 : SessionAnchor := mkAnchor "m" "n" keE

/-- A concrete instantiation of the external primitives, used by the
witnesses: the constant hash, block permutation and codec. -/
def P0 : Prims :=
  { sha512 := fun _ => List.replicate 64 0,
    aesE := fun _ _ => List.replicate 16 0,
    edSign := fun _ _ => [],
    edVerify := fun _ _ _ => true,
    keVerify := fun _ => .ok (),
    marshalSA := fun _ => [],
    unmarshalSA := fun _ => some sa0,
    marshalContents := fun _ => [],
    now := 10 }

/-- base64 of 64 zero bytes: the SIGKEYHASH/SESSIONANCHORHASH value for
the constant hash of P0. -/
def sigKeyHash0 : String := base64.Encode (List.replicate 64 0)

/-- base64 of 16 zero bytes: a decryptable SESSIONANCHOR ciphertext
(IV only, empty body). -/
def anchor0 : String := base64.Encode (List.replicate 16 0)

/-- A KeyInit whose session anchor passes all checks of
KeyInit.SessionAnchor under P0 but whose validity window is ill-formed
(NOTBEFORE = 5 ≥ 3 = NOTAFTER). -/
def kiC4 : KeyInit :=
  { Contents :=
    { VERSION := "1.0", MSGCOUNT := 0, NOTAFTER := 3, NOTBEFORE := 5,
      FALLBACK := false, SIGKEYHASH := sigKeyHash0, REPOURI := "r",
      SESSIONANCHOR := anchor0, SESSIONANCHORHASH := sigKeyHash0 },
    SIGNATURE := "" }

/-- C4 (amended): for every KeyInit that passes the repository-URI,
session-anchor and key-entry checks which KeyInit.Verify runs first,
an ill-formed validity window (NOTBEFORE ≥ NOTAFTER) yields
ErrInvalidTimes, and a well-formed but expired window (NOTAFTER before
the current time) yields ErrExpired. -/
theorem keyInit_Verify_time_window (p : Prims) (ki : KeyInit)
    (uris : List String) (sigPubKey : String) (sa : SessionAnchor)
    (ke : KeyEntry)
    (hrepo : ContainsString uris ki.Contents.REPOURI = true)
    (hsa : ki.SessionAnchor p sigPubKey = .ok sa)
    (hke : sa.KeyEntry "ECDHE25519" = .ok ke)
    (hkv : p.keVerify ke = .ok ()) :
    (ki.Contents.NOTAFTER ≤ ki.Contents.NOTBEFORE →
      ki.Verify p uris sigPubKey = .error .invalidTimes) ∧
    (ki.Contents.NOTBEFORE < ki.Contents.NOTAFTER →
      ki.Contents.NOTAFTER < p.now →
      ki.Verify p uris sigPubKey = .error .expired) := by
  constructor
  · intro ht
    simp [KeyInit.Verify, hrepo, hsa, hke, hkv, ht]
  · intro ht1 ht2
    simp [KeyInit.Verify, hrepo, hsa, hke, hkv, ht2,
      show ¬ ki.Contents.NOTBEFORE ≥ ki.Contents.NOTAFTER from by omega]

theorem keyInit_Verify_time_window_witness :
    (kiC4.Contents.NOTAFTER ≤ kiC4.Contents.NOTBEFORE →
      kiC4.Verify P0 ["r"] "" = .error .invalidTimes) ∧
    (kiC4.Contents.NOTBEFORE < kiC4.Contents.NOTAFTER →
      kiC4.Contents.NOTAFTER < P0.now →
      kiC4.Verify P0 ["r"] "" = .error .expired) :=
  keyInit_Verify_time_window P0 kiC4 ["r"] "" sa0 keE
    (by decide) (by decide) (by decide) (by decide)

/-- A KeyInit with an ill-formed validity window (NOTBEFORE = 5 ≥ 3 =
NOTAFTER) whose REPOURI is not registered. -/
def kiC4cx : KeyInit :=
  { Contents :=
    { VERSION := "1.0", MSGCOUNT := 0, NOTAFTER := 3, NOTBEFORE := 5,
      FALLBACK := false, SIGKEYHASH := "", REPOURI := "x",
      SESSIONANCHOR := "", SESSIONANCHORHASH := "" },
    SIGNATURE := "" }

/-- C4 counterexample: a KeyInit with NOTBEFORE ≥ NOTAFTER for which
Verify does not return ErrInvalidTimes — the repository-URI check runs
first and returns ErrRepoURI. -/
theorem keyInit_Verify_time_window_cx :
    kiC4cx.Contents.NOTAFTER ≤ kiC4cx.Contents.NOTBEFORE ∧
    kiC4cx.Verify P0 [] "" = .error .repoURI ∧
    kiC4cx.Verify P0 [] "" ≠ .error .invalidTimes := by decide

/-- A KeyInit whose session anchor passes all checks of
KeyInit.SessionAnchor under P0 and whose validity window is fine (used
for the C3 witness): Verify reaches the signature check. -/
def kiC3 : KeyInit :=
  { Contents :=
    { VERSION := "1.0", MSGCOUNT := 0, NOTAFTER := 100, NOTBEFORE := 1,
      FALLBACK := false, SIGKEYHASH := sigKeyHash0, REPOURI := "r",
      SESSIONANCHOR := anchor0, SESSIONANCHORHASH := sigKeyHash0 },
    SIGNATURE := "" }

/-- C3 (amended): KeyInit.Verify accepts a KeyInit only if its
SIGNATURE is a valid Ed25519 signature over the sorted-JSON encoding of
its Contents under the supplied public key, and — provided the
repository-URI, session-anchor, key-entry and time checks that run
first all pass — a KeyInit whose signature does not verify yields
exactly ErrInvalidKeyInitSig. -/
theorem keyInit_Verify_signature (p : Prims) (ki : KeyInit)
    (uris : List String) (sigPubKey : String) (sa : SessionAnchor)
    (ke : KeyEntry) (sig pubKey : List Nat)
    (hrepo : ContainsString uris ki.Contents.REPOURI = true)
    (hsa : ki.SessionAnchor p sigPubKey = .ok sa)
    (hke : sa.KeyEntry "ECDHE25519" = .ok ke)
    (hkv : p.keVerify ke = .ok ())
    (ht1 : ki.Contents.NOTBEFORE < ki.Contents.NOTAFTER)
    (ht2 : p.now ≤ ki.Contents.NOTAFTER)
    (hsig : base64.Decode ki.SIGNATURE = some sig)
    (hpub : base64.Decode sigPubKey = some pubKey) :
    (ki.Verify p uris sigPubKey = .ok () ↔
      p.edVerify pubKey (p.marshalContents ki.Contents) sig = true) ∧
    (p.edVerify pubKey (p.marshalContents ki.Contents) sig = false →
      ki.Verify p uris sigPubKey = .error .invalidKeyInitSig) := by
  have hnt : ¬ ki.Contents.NOTBEFORE ≥ ki.Contents.NOTAFTER := by omega
  have hnt2 : ¬ ki.Contents.NOTAFTER < p.now := by omega
  cases hv : p.edVerify pubKey (p.marshalContents ki.Contents) sig with
  | true =>
      constructor
      · simp [KeyInit.Verify, hrepo, hsa, hke, hkv, hnt, hnt2, hsig, hpub, hv]
      · intro hfalse
        simp [hv] at hfalse
  | false =>
      constructor
      · simp [KeyInit.Verify, hrepo, hsa, hke, hkv, hnt, hnt2, hsig, hpub, hv]
      · intro _
        simp [KeyInit.Verify, hrepo, hsa, hke, hkv, hnt, hnt2, hsig, hpub, hv]

theorem keyInit_Verify_signature_witness :
    (kiC3.Verify P0 ["r"] "" = .ok () ↔
      P0.edVerify [] (P0.marshalContents kiC3.Contents) [] = true) ∧
    (P0.edVerify [] (P0.marshalContents kiC3.Contents) [] = false →
      kiC3.Verify P0 ["r"] "" = .error .invalidKeyInitSig) :=
  keyInit_Verify_signature P0 kiC3 ["r"] "" sa0 keE [] []
    (by decide) (by decide) (by decide) (by decide) (by decide)
    (by decide) (by decide) (by decide)

/-- The primitives P0 with an ed25519 verifier that rejects every
signature. -/
def P0bad : Prims := { P0 with edVerify := fun _ _ _ => false }

/-- A KeyInit whose signature does not verify (P0bad rejects all
signatures) and whose REPOURI is unregistered. -/
def kiC3cx : KeyInit :=
  { Contents :=
    { VERSION := "1.0", MSGCOUNT := 0, NOTAFTER := 100, NOTBEFORE := 1,
      FALLBACK := false, SIGKEYHASH := "", REPOURI := "y",
      SESSIONANCHOR := "", SESSIONANCHORHASH := "" },
    SIGNATURE := "" }

/-- C3 counterexample: a KeyInit whose signature does not verify for
which Verify does not return ErrInvalidKeyInitSig — the repository-URI
check runs first and returns ErrRepoURI. -/
theorem keyInit_Verify_signature_cx :
    base64.Decode kiC3cx.SIGNATURE = some [] ∧
    base64.Decode "" = some [] ∧
    P0bad.edVerify [] (P0bad.marshalContents kiC3cx.Contents) [] = false ∧
    kiC3cx.Verify P0bad [] "" = .error .repoURI ∧
    kiC3cx.Verify P0bad [] "" ≠ .error .invalidKeyInitSig := by decide

theorem CTREncrypt_bytes_lt (E : List Nat → List Nat → List Nat)
    (key pt rand ct : List Nat)
    (hct : CTREncrypt E key pt rand = some ct)
    (hrandB : ∀ b ∈ rand, b < 256) (hptB : ∀ b ∈ pt, b < 256)
    (hEB : ∀ k b, ∀ v ∈ E k b, v < 256) :
    ∀ b ∈ ct, b < 256 := by
  unfold CTREncrypt at hct
  by_cases h1 : key.length ≠ 32
  · simp [h1] at hct
  · by_cases h2 : rand.length < 16
    · simp [h1, h2] at hct
    · simp only [h1, h2, if_false, ite_false, if_neg, not_false_eq_true,
        reduceIte] at hct
      intro b hb
      rw [← Option.some.inj hct] at hb
      rcases List.mem_append.mp hb with h | h
      · exact hrandB b (List.take_subset 16 rand h)
      · exact zipWith_xor_bytes_lt pt _ hptB
          (ctrBlocks_bytes_lt E key hEB _ _) b h

/-- The contents record assembled by Message.KeyInit (spelled out to
state its reduction). -/
def builtContents (p : Prims) (msgcount notafter notbefore : Nat)
    (fallback : Bool) (repoURI : String) (keyHash : List Nat)
    (sa : SessionAnchor) (ct : List Nat) : contents :=
  { VERSION := ProtocolVersion, MSGCOUNT := msgcount,
    NOTAFTER := notafter, NOTBEFORE := notbefore, FALLBACK := fallback,
    SIGKEYHASH := base64.Encode (p.sha512 keyHash), REPOURI := repoURI,
    SESSIONANCHOR := base64.Encode ct,
    SESSIONANCHORHASH := base64.Encode (p.sha512 (p.marshalSA sa)) }

/-- The KeyInit message assembled by Message.KeyInit. -/
def builtKeyInit (p : Prims) (msg : Message)
    (msgcount notafter notbefore : Nat) (fallback : Bool)
    (repoURI : String) (keyHash : List Nat) (sa : SessionAnchor)
    (ct : List Nat) : KeyInit :=
  { Contents := builtContents p msgcount notafter notbefore fallback
      repoURI keyHash sa ct,
    SIGNATURE := base64.Encode (p.edSign msg.UIDContent.SIGKEY
      (p.marshalContents (builtContents p msgcount notafter notbefore
        fallback repoURI keyHash sa ct))) }

/-- C2: round-trip of the key-init bundle.  For every UID message whose
SIGKEY.HASH is the base64 SHA-512 of its Ed25519 signing public key,
valid time parameters and any mix/nym addresses, KeyInit produces a
bundle whose SESSIONANCHOR is the AES-256-CTR encryption, under the
first 32 bytes of the SHA-512 hash of the signing key, of the generated
anchor; SessionAnchor, called with the matching base64 public key,
passes the SIGKEYHASH and SESSIONANCHORHASH checks and returns the
anchor with exactly the generated MIXADDRESS, NYMADDRESS and PFKEYS.
The hash, block-permutation and sorted-JSON codec are parameters,
constrained only by their output lengths/bytes and the codec round-trip
at the generated anchor. -/
theorem keyInit_sessionAnchor_roundtrip (p : Prims) (msg : Message)
    (msgcount notafter notbefore : Nat) (fallback : Bool)
    (repoURI mixaddress nymaddress sigPubKey : String)
    (pfk : KeyEntry) (rand pubKey : List Nat) (rs : List String)
    (hdecPub : base64.Decode sigPubKey = some pubKey)
    (hhash : msg.UIDContent.SIGKEY.HASH = base64.Encode (p.sha512 pubKey))
    (hsha64 : ∀ x, (p.sha512 x).length = 64)
    (hshaB : ∀ x, ∀ b ∈ p.sha512 x, b < 256)
    (hE16 : ∀ k b, (p.aesE k b).length = 16)
    (hEB : ∀ k b, ∀ v ∈ p.aesE k b, v < 256)
    (hjsonB : ∀ b ∈ p.marshalSA (mkAnchor mixaddress nymaddress pfk),
      b < 256)
    (hrt : p.unmarshalSA (p.marshalSA (mkAnchor mixaddress nymaddress pfk)) =
      some (mkAnchor mixaddress nymaddress pfk))
    (ht1 : notbefore < notafter) (ht2 : p.now ≤ notafter)
    (ht3 : notafter ≤ p.now + MaxNotAfter)
    (hrs : msg.UIDContent.REPOURIS = repoURI :: rs)
    (hrand16 : 16 ≤ rand.length) (hrandB : ∀ b ∈ rand, b < 256) :
    ∃ ki pkh priv ct,
      CTREncrypt p.aesE ((p.sha512 pubKey).take 32)
        (p.marshalSA (mkAnchor mixaddress nymaddress pfk)) rand =
        some ct ∧
      Message.KeyInit p msg msgcount notafter notbefore fallback repoURI
        mixaddress nymaddress pfk rand = .ok (ki, pkh, priv) ∧
      ki.Contents.SESSIONANCHOR = base64.Encode ct ∧
      ki.SessionAnchor p sigPubKey =
        .ok (mkAnchor mixaddress nymaddress pfk) := by
  have hkeylen : ((p.sha512 pubKey).take 32).length = 32 := by
    rw [List.length_take, hsha64 pubKey]
    omega
  obtain ⟨ct, hen, hctlen, hdec⟩ := CTR_roundtrip p.aesE
    ((p.sha512 pubKey).take 32)
    (p.marshalSA (mkAnchor mixaddress nymaddress pfk)) rand
    hkeylen hrand16 hE16
  have hdecHash : base64.Decode msg.UIDContent.SIGKEY.HASH =
      some (p.sha512 pubKey) := by
    rw [hhash]
    exact base64_Decode_Encode _ (hshaB pubKey)
  have hctB : ∀ b ∈ ct, b < 256 :=
    CTREncrypt_bytes_lt p.aesE _ _ _ _ hen hrandB hjsonB hEB
  have hdecAnchor : base64.Decode (base64.Encode ct) = some ct :=
    base64_Decode_Encode ct hctB
  have g1 : ¬ notbefore ≥ notafter := by omega
  have g2 : ¬ notafter < p.now := by omega
  have g3 : ¬ notafter > p.now + MaxNotAfter := by omega
  simp only [mkAnchor] at hen hdec hrt
  refine ⟨builtKeyInit p msg msgcount notafter notbefore fallback repoURI
      (p.sha512 pubKey) (mkAnchor mixaddress nymaddress pfk) ct,
    pfk.HASH, base64.Encode pfk.privKey32, ct, hen, ?_, rfl, ?_⟩
  · simp [Message.KeyInit, Message.sessionAnchor, builtKeyInit,
      builtContents, hdecHash, hrs, g1, g2, g3, hen, mkAnchor]
  · simp [KeyInit.SessionAnchor, builtKeyInit, builtContents, hdecPub,
      hdecAnchor, hdec, hrt, mkAnchor]

/-- The UID message for the C2 witness: its SIGKEY.HASH is the base64
SHA-512 (under P0's hash) of the empty public key. -/
def msgC2 : Message :=
  { UIDContent :=
    { SIGKEY := { keDefault with HASH := sigKeyHash0 },
      REPOURIS := ["r"] } }

theorem keyInit_sessionAnchor_roundtrip_witness :
    ∃ ki pkh priv ct,
      CTREncrypt P0.aesE ((P0.sha512 []).take 32)
        (P0.marshalSA (mkAnchor "m" "n" keE)) (List.replicate 16 0) =
        some ct ∧
      Message.KeyInit P0 msgC2 0 100 1 false "r" "m" "n" keE
        (List.replicate 16 0) = .ok (ki, pkh, priv) ∧
      ki.Contents.SESSIONANCHOR = base64.Encode ct ∧
      ki.SessionAnchor P0 "" = .ok (mkAnchor "m" "n" keE) :=
  keyInit_sessionAnchor_roundtrip P0 msgC2 0 100 1 false "r" "m" "n" ""
    keE (List.replicate 16 0) [] []
    (by decide)
    (by decide)
    (fun _ => rfl)
    (fun _ b hb => by
      have := List.eq_of_mem_replicate hb
      omega)
    (fun _ _ => rfl)
    (fun _ _ v hv => by
      have := List.eq_of_mem_replicate hv
      omega)
    (fun b hb => absurd hb (List.not_mem_nil b))
    rfl
    (by decide) (by decide) (by decide)
    rfl
    (by decide)
    (fun b hb => by
      have := List.eq_of_mem_replicate hb
      omega)
